import Mathlib

/-!
Shallow embedding of `src/primitives/block.h` (SolarCoin block primitives):
the block header, the block with its transaction list and signature, the
block locator, and the hashing / proof-of-stake helpers built on them.

The external collaborators this header relies on (the transaction type, the
cryptographic hash primitives, the low-level codec of `serialize.h`, the
configuration/logging facility) are not part of this core; they are modelled
from the specification's description of their interfaces, and each such
definition is marked `Modelled from the spec`.
-/

/-- Modelled from the spec: an outpoint (a reference to a transaction output),
owned by the external transaction collaborator. `COutPoint()` default
constructs the null outpoint (null hash, index 2^32 - 1). -/
structure COutPoint where
  hash : Nat
  n : Nat
deriving DecidableEq

/-- Modelled from the spec: the null outpoint produced by `COutPoint()`. -/
def COutPoint.nullOutPoint : COutPoint := ⟨0, 4294967295⟩

/-- Modelled from the spec: the view of a transaction this core consumes from
the external transaction collaborator — whether it is a coin-stake (stake)
transaction (`CTransaction::IsCoinStake`), its first input's outpoint
(`tx.vin[0].prevout`), and its timestamp (`tx.nTime`). -/
structure CTransaction where
  isCoinStake : Bool
  vin0prevout : COutPoint
  nTime : Nat
deriving DecidableEq

/-- The six-field block header, `class CBlockHeader`. `nVersion` is a 32-bit
signed integer and the remaining scalar fields 32-bit unsigned integers;
no arithmetic is ever performed on them in this core, so they are embedded
as `Int`/`Nat`; the two hashes are 256-bit values embedded as `Nat`. -/
structure CBlockHeader where
  nVersion : Int
  hashPrevBlock : Nat
  hashMerkleRoot : Nat
  nTime : Nat
  nBits : Nat
  nNonce : Nat
deriving DecidableEq

def CBlockHeader.LEGACY_VERSION_1 : Int := 1

def CBlockHeader.LEGACY_VERSION_2 : Int := 2

def CBlockHeader.CURRENT_VERSION : Int := 3

/-- `CBlockHeader::SetNull` / the default-constructed header. -/
def CBlockHeader.null : CBlockHeader := ⟨0, 0, 0, 0, 0, 0⟩

/-- `CBlockHeader::IsNull`: true iff `nBits == 0`. -/
def CBlockHeader.IsNull (h : CBlockHeader) : Bool :=
  h.nBits == 0

/-- Modelled from the spec: the primitive field items written and read by the
external codec framework of `serialize.h` — fixed-width 32-bit signed and
unsigned integers, fixed-width 256-bit hashes, variable-length byte
sequences, the length prefix of a sequence, and transactions (whose own
byte layout is owned by the transaction collaborator). This core only
specifies field order and conditional inclusion over these items. -/
inductive Token where
  | i32 (v : Int)
  | u32 (v : Nat)
  | h256 (v : Nat)
  | bytes (v : List Nat)
  | compactSize (n : Nat)
  | tx (t : CTransaction)
deriving DecidableEq

/-- Modelled from the spec: the serialization-context bits of the stream type
that this core tests — `SER_GETHASH` and `SER_BLOCKHEADERONLY`. -/
structure SerType where
  getHash : Bool
  blockHeaderOnly : Bool
deriving DecidableEq

/-- The full network/disk encoding context (neither bit set). -/
def fullSer : SerType := ⟨false, false⟩

/-- The hash-domain encoding context (`SER_GETHASH`). -/
def hashSer : SerType := ⟨true, false⟩

/-- The header-only encoding context (`SER_BLOCKHEADERONLY`). -/
def headerOnlySer : SerType := ⟨false, true⟩

/-- `CBlockHeader::SerializationOp`, write direction: the six header fields in
declared order, always, independent of the encoding context. -/
def CBlockHeader.serialize (h : CBlockHeader) : List Token :=
  [Token.i32 h.nVersion, Token.h256 h.hashPrevBlock, Token.h256 h.hashMerkleRoot,
   Token.u32 h.nTime, Token.u32 h.nBits, Token.u32 h.nNonce]

/-- `CBlockHeader::SerializationOp`, read direction: the six header fields in
declared order; a missing or differently-shaped field item is a failure. -/
def CBlockHeader.deserialize : List Token → Option (CBlockHeader × List Token)
  | Token.i32 v :: Token.h256 p :: Token.h256 m ::
      Token.u32 t :: Token.u32 b :: Token.u32 n :: rest =>
      some (⟨v, p, m, t, b, n⟩, rest)
  | _ => none

/-- Modelled from the spec: the numeric content of one field item, used only
by the stand-in hash below. -/
def CTransaction.contentNat (t : CTransaction) : Nat :=
  (if t.isCoinStake then 1 else 0) + t.vin0prevout.hash + t.vin0prevout.n + t.nTime

/-- Modelled from the spec: the numeric content of one field item, used only
by the stand-in hash below. -/
def Token.contentNat : Token → Nat
  | Token.i32 v => 2 * v.natAbs + (if v < 0 then 1 else 0)
  | Token.u32 v => v
  | Token.h256 v => v
  | Token.bytes bs => bs.foldl (fun a b => 256 * a + b + 1) 1
  | Token.compactSize n => n
  | Token.tx t => t.contentNat

/-- Modelled from the spec: stand-in for the external general-purpose
cryptographic hash of `hash.h` (`Hash`, a double round of SHA-256) applied
to a serialized field range. The verified claims depend only on which
serialized fields are fed to the hash, never on the hash internals. -/
def Hash (data : List Token) : Nat :=
  (data.foldl (fun acc t => acc * 4294967311 + t.contentNat + 1) 1) % 2 ^ 256

/-- `CBlockHeader::GetHash`: the identity hash, computed over the serialized
byte range spanning exactly the six header fields in declared order
(`Hash(BEGIN(nVersion), END(nNonce))`) — never transactions or signature. -/
def CBlockHeader.GetHash (h : CBlockHeader) : Nat :=
  Hash h.serialize

/-- `CBlockHeader::GetBlockTime`: the timestamp widened to a signed 64-bit
integer. -/
def CBlockHeader.GetBlockTime (h : CBlockHeader) : Int :=
  (h.nTime : Int)

/-- `class CBlock`: the header (embedded by inheritance in the source,
composition here), the transaction list `vtx`, the block signature
`vchBlockSig`, and the memory-only `fChecked` flag (never serialized). -/
structure CBlock where
  header : CBlockHeader
  vtx : List CTransaction
  vchBlockSig : List Nat
  fChecked : Bool
deriving DecidableEq

/-- `CBlock::SetNull` / the default-constructed block. -/
def CBlock.null : CBlock := ⟨CBlockHeader.null, [], [], false⟩

/-- `CBlock::GetHash` is `CBlockHeader::GetHash` applied to the embedded
header sub-object: the hashed byte range `BEGIN(nVersion) .. END(nNonce)`
covers exactly the six header fields. -/
def CBlock.GetHash (b : CBlock) : Nat :=
  b.header.GetHash

/-- `CBlock::GetBlockHeader`: projects the six header fields into a fresh
header value. -/
def CBlock.GetBlockHeader (b : CBlock) : CBlockHeader :=
  ⟨b.header.nVersion, b.header.hashPrevBlock, b.header.hashMerkleRoot,
   b.header.nTime, b.header.nBits, b.header.nNonce⟩

/-- `READWRITE(vtx)` write direction: the external codec writes a sequence as
its length prefix followed by its elements. -/
def serVtx (vtx : List CTransaction) : List Token :=
  Token.compactSize vtx.length :: vtx.map Token.tx

/-- `READWRITE(vtx)` read direction, element phase: reads exactly `n`
transactions; running out of data or meeting a differently-shaped field
item is a failure. -/
def readTxs : Nat → List Token → Option (List CTransaction × List Token)
  | 0, rest => some ([], rest)
  | n + 1, Token.tx t :: rest =>
      match readTxs n rest with
      | some (ts, r) => some (t :: ts, r)
      | none => none
  | _ + 1, _ => none

/-- `READWRITE(vtx)` read direction: length prefix, then that many
transactions. -/
def deserVtx : List Token → Option (List CTransaction × List Token)
  | Token.compactSize n :: rest => readTxs n rest
  | _ => none

/-- `CBlock::SerializationOp`, write direction: the header always; then,
unless the context has `SER_GETHASH` or `SER_BLOCKHEADERONLY` set, the
transaction sequence, followed by the signature byte sequence only when
`nVersion >= CURRENT_VERSION`. -/
def CBlock.serialize (st : SerType) (b : CBlock) : List Token :=
  b.header.serialize ++
    (if !(st.getHash || st.blockHeaderOnly) then
      serVtx b.vtx ++
        (if b.header.nVersion ≥ CBlockHeader.CURRENT_VERSION then
          [Token.bytes b.vchBlockSig]
        else [])
    else [])

/-- `CBlock::SerializationOp`, read direction, deserializing into `prev` (the
C++ codec reads into an existing object: a field the branch does not read
keeps its previous contents). In the full view the header, `vtx` and —
only when the just-read `nVersion >= CURRENT_VERSION` — `vchBlockSig` are
read; in the `SER_GETHASH`/`SER_BLOCKHEADERONLY` branch only the header is
read and `vtx` and `vchBlockSig` are explicitly cleared. Out-of-data or a
differently-shaped field item is a failure. -/
def CBlock.deserializeInto (st : SerType) (prev : CBlock) (toks : List Token) :
    Option (CBlock × List Token) :=
  match CBlockHeader.deserialize toks with
  | none => none
  | some (h, rest) =>
    if !(st.getHash || st.blockHeaderOnly) then
      match deserVtx rest with
      | none => none
      | some (vtx, rest2) =>
        if h.nVersion ≥ CBlockHeader.CURRENT_VERSION then
          match rest2 with
          | Token.bytes sig :: rest3 =>
              some ({ prev with header := h, vtx := vtx, vchBlockSig := sig }, rest3)
          | _ => none
        else
          some ({ prev with header := h, vtx := vtx }, rest2)
    else
      some ({ prev with header := h, vtx := [], vchBlockSig := [] }, rest)

/-- Modelled from the spec: whole-buffer decoding of a block — the target is a
fresh default-constructed (`SetNull`) block, and a trailing unconsumed
stream is a decode failure, never a partial success. -/
def CBlock.decode (st : SerType) (toks : List Token) : Option CBlock :=
  match CBlock.deserializeInto st CBlock.null toks with
  | some (b, []) => some b
  | _ => none

/-- `CBlock::IsProofOfStake`. The source binds `const CTransaction& tx =
*vtx[1];` before evaluating `vtx.size() > 1 && tx.IsCoinStake()`; on a
block with fewer than two transactions that binding is an out-of-bounds
vector access (undefined behaviour), embedded here as `none`. -/
def CBlock.IsProofOfStake (b : CBlock) : Option Bool :=
  match b.vtx.get? 1 with
  | none => none
  | some tx => some (decide (b.vtx.length > 1) && tx.isCoinStake)

/-- `CBlock::IsProofOfWork`: the negation of `IsProofOfStake()`. -/
def CBlock.IsProofOfWork (b : CBlock) : Option Bool :=
  Option.map (fun x => !x) b.IsProofOfStake

/-- `CBlock::GetProofOfStake`: binds `const CTransaction& tx = *vtx[1];`
(out of bounds — `none` — on fewer than two transactions), then returns
`(tx.vin[0].prevout, tx.nTime)` when `IsProofOfStake()`, else
`(COutPoint(), 0)`. -/
def CBlock.GetProofOfStake (b : CBlock) : Option (COutPoint × Nat) :=
  match b.vtx.get? 1 with
  | none => none
  | some tx =>
    match b.IsProofOfStake with
    | none => none
    | some true => some (tx.vin0prevout, tx.nTime)
    | some false => some (COutPoint.nullOutPoint, 0)

/-- Modelled from the spec: `uint256::GetUint64 pos` extracts the pos-th
64-bit word of a 256-bit value (position 0 is the low word). -/
def getUint64 (x : Nat) (pos : Nat) : Nat :=
  (x >>> (64 * pos)) % 2 ^ 64

/-- The diagnostic record `GetStakeEntropyBit` logs when the process-wide
`-printstakemodifier` flag is enabled: the time argument, the block hash
and the resulting bit. -/
structure StakeEntropyLog where
  nTime : Nat
  hashBlock : Nat
  nEntropyBit : Nat
deriving DecidableEq

/-- `CBlock::GetStakeEntropyBit`: the last bit of the 64-bit low word of the
block hash, `GetHash().GetUint64(0) & 1`. The process-wide configuration
flag (`gArgs.GetBoolArg("-printstakemodifier", false)`, modelled as an
explicit argument per the spec's configuration collaborator) only controls
whether a diagnostic record is emitted, returned here alongside the value. -/
def CBlock.GetStakeEntropyBit (b : CBlock) (nTime : Nat) (printstakemodifier : Bool) :
    Nat × Option StakeEntropyLog :=
  let nEntropyBit := getUint64 b.GetHash 0 &&& 1
  (nEntropyBit,
   if printstakemodifier then some ⟨nTime, b.GetHash, nEntropyBit⟩ else none)

/-- `struct CBlockLocator`: a sequence of 256-bit block hashes. -/
structure CBlockLocator where
  vHave : List Nat
deriving DecidableEq

/-- `CBlockLocator::IsNull`: true iff the hash sequence is empty. -/
def CBlockLocator.IsNull (loc : CBlockLocator) : Bool :=
  loc.vHave.isEmpty

/-- `CBlockLocator::SerializationOp`, write direction: the stream's protocol
version (`s.GetVersion()`) first — unless the context has `SER_GETHASH`
set, in which case it is omitted entirely — then the hash sequence. -/
def CBlockLocator.serialize (st : SerType) (streamVersion : Int)
    (loc : CBlockLocator) : List Token :=
  (if !st.getHash then [Token.i32 streamVersion] else []) ++
    (Token.compactSize loc.vHave.length :: loc.vHave.map Token.h256)

/-- `READWRITE(vHave)` read direction, element phase: reads exactly `n`
hashes. -/
def readHashes : Nat → List Token → Option (List Nat × List Token)
  | 0, rest => some ([], rest)
  | n + 1, Token.h256 h :: rest =>
      match readHashes n rest with
      | some (hs, r) => some (h :: hs, r)
      | none => none
  | _ + 1, _ => none

/-- `CBlockLocator::SerializationOp`, read direction: unless the context has
`SER_GETHASH` set, a version integer is read into the local `nVersion` and
discarded; then the hash sequence is read. -/
def CBlockLocator.deserialize (st : SerType) (toks : List Token) :
    Option (CBlockLocator × List Token) :=
  match (if !st.getHash then
           match toks with
           | Token.i32 _ :: rest => some rest
           | _ => none
         else some toks) with
  | none => none
  | some rest =>
    match rest with
    | Token.compactSize n :: rest2 =>
      match readHashes n rest2 with
      | some (hs, rest3) => some (⟨hs⟩, rest3)
      | none => none
    | _ => none

/-- The result of a full-view read of `CBlock.serialize fullSer b ++ rest`
into `prev`: header and transactions come from the stream; the signature
comes from the stream only when the just-read version licenses one,
otherwise the target's previous contents are kept (the source's read path
does not touch `vchBlockSig` for legacy versions). -/
def blockReadResult (prev b : CBlock) : CBlock :=
  { prev with
    header := b.header
    vtx := b.vtx
    vchBlockSig :=
      if b.header.nVersion ≥ CBlockHeader.CURRENT_VERSION then b.vchBlockSig
      else prev.vchBlockSig }

/-- Concrete non-stake transaction used by the witnesses. -/
def wTx : CTransaction := ⟨false, COutPoint.nullOutPoint, 0⟩

/-- Concrete stake transaction used by the witnesses. -/
def wStakeTx : CTransaction := ⟨true, ⟨77, 1⟩, 1231006505⟩

/-- Concrete current-version header used by the witnesses. -/
def wHeader : CBlockHeader := ⟨3, 0, 55, 1231006505, 486604799, 2083236893⟩

/-- Concrete legacy-version header used by the witnesses. -/
def wHeaderV1 : CBlockHeader := ⟨1, 9, 55, 1394745600, 486604799, 7⟩

/-- Concrete block with one transaction and a non-empty signature. -/
def wBlock1 : CBlock := ⟨wHeader, [wTx], [1, 2, 3], false⟩

/-- Concrete block with the same header as `wBlock1` but no transactions and
an empty signature. -/
def wBlock2 : CBlock := ⟨wHeader, [], [], false⟩

/-- Concrete block with exactly one transaction. -/
def wOneTxBlock : CBlock := ⟨wHeader, [wTx], [], false⟩

/-- Concrete proof-of-work block with two transactions. -/
def wTwoTxBlock : CBlock := ⟨wHeader, [wTx, wTx], [], false⟩

/-- Concrete proof-of-stake block: two transactions, `vtx[1]` a stake
transaction. -/
def wStakeBlock : CBlock := ⟨wHeader, [wTx, wStakeTx], [], false⟩

/-- Concrete legacy-version block carrying a (forbidden) non-empty
signature in memory. -/
def wBlockV1 : CBlock := ⟨wHeaderV1, [wTx], [4, 5], false⟩

/-- Reading a serialized header off the front of a stream recovers the header
and leaves the rest untouched. -/
theorem CBlockHeader.deserialize_serialize (h : CBlockHeader) (rest : List Token) :
    CBlockHeader.deserialize (h.serialize ++ rest) = some (h, rest) := rfl

/-- Reading back exactly the transactions just written recovers them. -/
theorem readTxs_serialize (ts : List CTransaction) (rest : List Token) :
    readTxs ts.length (ts.map Token.tx ++ rest) = some (ts, rest) := by
  induction ts with
  | nil => rfl
  | cons t ts ih => simp [readTxs, ih]

/-- A successful header read consumed exactly the header's serialization. -/
theorem CBlockHeader.deserialize_eq (toks rest : List Token) (h : CBlockHeader)
    (hd : CBlockHeader.deserialize toks = some (h, rest)) :
    toks = h.serialize ++ rest := by
  unfold CBlockHeader.deserialize at hd
  split at hd
  · cases hd
    rfl
  · simp at hd

/-- A successful transaction-element read consumed exactly the serialized
elements, and their number matches the requested count. -/
theorem readTxs_eq (n : Nat) (toks : List Token) (ts : List CTransaction)
    (rest : List Token) (h : readTxs n toks = some (ts, rest)) :
    toks = ts.map Token.tx ++ rest ∧ ts.length = n := by
  induction n generalizing toks ts with
  | zero =>
    unfold readTxs at h
    cases h
    exact ⟨rfl, rfl⟩
  | succ n ih =>
    match toks with
    | [] => simp [readTxs] at h
    | Token.tx t :: r =>
      unfold readTxs at h
      split at h
      · rename_i ts' r' heq
        cases h
        obtain ⟨h1, h2⟩ := ih r ts' heq
        subst h1 h2
        exact ⟨rfl, rfl⟩
      · simp at h
    | Token.i32 v :: r => simp [readTxs] at h
    | Token.u32 v :: r => simp [readTxs] at h
    | Token.h256 v :: r => simp [readTxs] at h
    | Token.bytes v :: r => simp [readTxs] at h
    | Token.compactSize v :: r => simp [readTxs] at h

/-- A successful sequence read consumed exactly the serialized sequence. -/
theorem deserVtx_eq (toks : List Token) (ts : List CTransaction)
    (rest : List Token) (h : deserVtx toks = some (ts, rest)) :
    toks = serVtx ts ++ rest := by
  unfold deserVtx at h
  split at h
  · rename_i n r
    obtain ⟨h1, h2⟩ := readTxs_eq n r ts rest h
    subst h2
    rw [h1]
    rfl
  · simp at h

/-- Full-view read of a just-written block off the front of a stream: the
result is `blockReadResult prev b` and the rest of the stream is left.
-/
theorem CBlock.deserializeInto_serialize (prev b : CBlock) (rest : List Token) :
    CBlock.deserializeInto fullSer prev (CBlock.serialize fullSer b ++ rest) =
      some (blockReadResult prev b, rest) := by
  by_cases hv : b.header.nVersion ≥ CBlockHeader.CURRENT_VERSION
  · simp only [CBlock.serialize, fullSer, Bool.or_false, Bool.not_false, if_true, hv,
      ite_true, List.append_assoc]
    unfold CBlock.deserializeInto
    rw [CBlockHeader.deserialize_serialize]
    simp only [Bool.or_false, Bool.not_false, if_true]
    have hseq : serVtx b.vtx ++ ([Token.bytes b.vchBlockSig] ++ rest) =
        Token.compactSize b.vtx.length :: (b.vtx.map Token.tx ++ ([Token.bytes b.vchBlockSig] ++ rest)) := by
      simp [serVtx]
    rw [hseq]
    show (match deserVtx (Token.compactSize b.vtx.length :: (b.vtx.map Token.tx ++ ([Token.bytes b.vchBlockSig] ++ rest))) with
      | none => none
      | some (vtx, rest2) =>
        if b.header.nVersion ≥ CBlockHeader.CURRENT_VERSION then
          match rest2 with
          | Token.bytes sig :: rest3 =>
              some ({ prev with header := b.header, vtx := vtx, vchBlockSig := sig }, rest3)
          | _ => none
        else
          some ({ prev with header := b.header, vtx := vtx }, rest2)) =
      some (blockReadResult prev b, rest)
    rw [show deserVtx (Token.compactSize b.vtx.length :: (b.vtx.map Token.tx ++ ([Token.bytes b.vchBlockSig] ++ rest))) =
        readTxs b.vtx.length (b.vtx.map Token.tx ++ ([Token.bytes b.vchBlockSig] ++ rest)) from rfl]
    rw [readTxs_serialize]
    simp [hv, blockReadResult]
  · simp only [CBlock.serialize, fullSer, Bool.or_false, Bool.not_false, if_true, hv,
      ite_false, List.append_assoc, List.append_nil]
    unfold CBlock.deserializeInto
    rw [CBlockHeader.deserialize_serialize]
    simp only [Bool.or_false, Bool.not_false, if_true]
    have hseq : serVtx b.vtx ++ rest =
        Token.compactSize b.vtx.length :: (b.vtx.map Token.tx ++ rest) := by
      simp [serVtx]
    rw [hseq]
    show (match deserVtx (Token.compactSize b.vtx.length :: (b.vtx.map Token.tx ++ rest)) with
      | none => none
      | some (vtx, rest2) =>
        if b.header.nVersion ≥ CBlockHeader.CURRENT_VERSION then
          match rest2 with
          | Token.bytes sig :: rest3 =>
              some ({ prev with header := b.header, vtx := vtx, vchBlockSig := sig }, rest3)
          | _ => none
        else
          some ({ prev with header := b.header, vtx := vtx }, rest2)) =
      some (blockReadResult prev b, rest)
    rw [show deserVtx (Token.compactSize b.vtx.length :: (b.vtx.map Token.tx ++ rest)) =
        readTxs b.vtx.length (b.vtx.map Token.tx ++ rest) from rfl]
    rw [readTxs_serialize]
    simp [hv, blockReadResult]

/-- A successful full-view block read consumed exactly the full-view
serialization of the block it produced. -/
theorem CBlock.deserializeInto_eq (prev : CBlock) (toks rest : List Token)
    (b : CBlock) (h : CBlock.deserializeInto fullSer prev toks = some (b, rest)) :
    toks = CBlock.serialize fullSer b ++ rest := by
  unfold CBlock.deserializeInto at h
  split at h
  · simp at h
  · rename_i hd r1 heq
    simp only [fullSer, Bool.or_false, Bool.not_false, if_true] at h
    split at h
    · simp at h
    · rename_i vtx r2 heq2
      split at h
      · rename_i hv
        split at h
        · cases h
          rw [CBlockHeader.deserialize_eq toks r1 hd heq,
            deserVtx_eq r1 vtx _ heq2]
          simp [CBlock.serialize, fullSer, hv]
        · simp at h
      · rename_i hv
        cases h
        rw [CBlockHeader.deserialize_eq toks r1 hd heq,
          deserVtx_eq r1 vtx rest heq2]
        simp [CBlock.serialize, fullSer, hv]

/-- A successful full-view block read is unaffected by data appended after
the consumed range. -/
theorem CBlock.deserializeInto_append (prev b : CBlock) (toks rest ys : List Token)
    (h : CBlock.deserializeInto fullSer prev toks = some (b, rest)) :
    CBlock.deserializeInto fullSer prev (toks ++ ys) = some (b, rest ++ ys) := by
  have hex := CBlock.deserializeInto_eq prev toks rest b h
  rw [hex] at h
  rw [CBlock.deserializeInto_serialize prev b rest] at h
  have hb : blockReadResult prev b = b := by
    injection h with h'
    exact congrArg Prod.fst h'
  rw [hex, List.append_assoc]
  rw [CBlock.deserializeInto_serialize prev b (rest ++ ys), hb]

/-- C1: `GetHash()` of a block is a pure, deterministic function of exactly
the six header fields: any two blocks whose six header fields agree have
equal `GetHash()`, regardless of their transaction lists or block
signatures. -/
theorem C1_getHash_depends_only_on_header (b1 b2 : CBlock)
    (h1 : b1.header.nVersion = b2.header.nVersion)
    (h2 : b1.header.hashPrevBlock = b2.header.hashPrevBlock)
    (h3 : b1.header.hashMerkleRoot = b2.header.hashMerkleRoot)
    (h4 : b1.header.nTime = b2.header.nTime)
    (h5 : b1.header.nBits = b2.header.nBits)
    (h6 : b1.header.nNonce = b2.header.nNonce) :
    b1.GetHash = b2.GetHash := by
  unfold CBlock.GetHash CBlockHeader.GetHash CBlockHeader.serialize
  rw [h1, h2, h3, h4, h5, h6]

/-- Witness for C1: two concrete blocks with equal header fields but
different transaction lists and signatures hash identically. -/
theorem C1_getHash_witness :
    wBlock1.vtx ≠ wBlock2.vtx ∧ wBlock1.vchBlockSig ≠ wBlock2.vchBlockSig ∧
    wBlock1.GetHash = wBlock2.GetHash :=
  ⟨by decide, by decide,
   C1_getHash_depends_only_on_header wBlock1 wBlock2 rfl rfl rfl rfl rfl rfl⟩

/-- C2 (code bug): the claim says a block with exactly one transaction is
classified proof-of-work (`IsProofOfStake() = false`,
`IsProofOfWork() = true`), but the source binds
`const CTransaction& tx = *vtx[1];` before evaluating
`vtx.size() > 1`, an out-of-bounds vector access on such a block —
embedded as `none` — so neither classifier returns a value there. With at
least two transactions the guard behaves as specified. -/
theorem C2_single_tx_classification_oob :
    wOneTxBlock.vtx.length = 1 ∧
    wOneTxBlock.IsProofOfStake = none ∧
    wOneTxBlock.IsProofOfWork = none ∧
    wTwoTxBlock.IsProofOfStake = some false ∧
    wTwoTxBlock.IsProofOfWork = some true ∧
    wStakeBlock.IsProofOfStake = some true ∧
    wStakeBlock.IsProofOfWork = some false := by
  decide

/-- C6 (code bug): the claim says that on every block with a non-empty
transaction list, `GetProofOfStake()` returns the stake-kernel pair for
proof-of-stake blocks and `(null outpoint, 0)` for proof-of-work blocks;
the source again binds `const CTransaction& tx = *vtx[1];` first, so on
the (non-empty) single-transaction proof-of-work block the access is out
of bounds — embedded as `none` — instead of `(null outpoint, 0)`. With at
least two transactions the function behaves as specified. -/
theorem C6_getProofOfStake_oob :
    wOneTxBlock.vtx ≠ [] ∧
    wOneTxBlock.GetProofOfStake = none ∧
    wStakeBlock.GetProofOfStake = some (wStakeTx.vin0prevout, wStakeTx.nTime) ∧
    wTwoTxBlock.GetProofOfStake = some (COutPoint.nullOutPoint, 0) := by
  decide

/-- C7: a locator holding `[h0, h1, h2]` encodes in wire form as a leading
protocol-version integer, the count 3, then the three hashes; in
hash-domain form as the count 3 then the three hashes with no version
integer; and both buffers decode back to `[h0, h1, h2]` in the
corresponding context. -/
theorem C7_locator_layout_roundtrip (h0 h1 h2 : Nat) (v : Int) :
    CBlockLocator.serialize fullSer v ⟨[h0, h1, h2]⟩ =
      [Token.i32 v, Token.compactSize 3,
       Token.h256 h0, Token.h256 h1, Token.h256 h2] ∧
    CBlockLocator.serialize hashSer v ⟨[h0, h1, h2]⟩ =
      [Token.compactSize 3, Token.h256 h0, Token.h256 h1, Token.h256 h2] ∧
    CBlockLocator.deserialize fullSer
        (CBlockLocator.serialize fullSer v ⟨[h0, h1, h2]⟩) =
      some (⟨[h0, h1, h2]⟩, []) ∧
    CBlockLocator.deserialize hashSer
        (CBlockLocator.serialize hashSer v ⟨[h0, h1, h2]⟩) =
      some (⟨[h0, h1, h2]⟩, []) :=
  ⟨rfl, rfl, rfl, rfl⟩

/-- C8: `GetStakeEntropyBit` returns exactly the least-significant bit of the
64-bit low word of `GetHash()` (hence a value that is 0 or 1), and the
returned value is the same whatever the state of the process-wide
diagnostic logging flag — the flag only controls the emitted log record. -/
theorem C8_stake_entropy_bit (b : CBlock) (t : Nat) (flag otherflag : Bool) :
    (b.GetStakeEntropyBit t flag).1 = getUint64 b.GetHash 0 % 2 ∧
    (b.GetStakeEntropyBit t flag).1 ≤ 1 ∧
    (b.GetStakeEntropyBit t flag).1 = (b.GetStakeEntropyBit t otherflag).1 := by
  refine ⟨Nat.and_one_is_mod _, ?_, rfl⟩
  show getUint64 b.GetHash 0 &&& 1 ≤ 1
  rw [Nat.and_one_is_mod]
  omega

/-- C10: the wire-form locator decoder reads and discards the leading
protocol-version integer — two wire-form buffers that differ only in that
integer decode to identical results. -/
theorem C10_locator_version_discarded (v1 v2 : Int) (rest : List Token) :
    CBlockLocator.deserialize fullSer (Token.i32 v1 :: rest) =
      CBlockLocator.deserialize fullSer (Token.i32 v2 :: rest) := rfl

/-- C3: full (network/disk) view round-trip — for every validly constructed
block (its signature empty whenever the version is below
`CURRENT_VERSION`), encoding in the full view and decoding the produced
stream yields a block with identical six header fields, identical
transaction sequence, and identical signature presence and content. -/
theorem C3_full_view_roundtrip (b : CBlock)
    (hvalid : b.header.nVersion < CBlockHeader.CURRENT_VERSION → b.vchBlockSig = []) :
    ∃ b', CBlock.decode fullSer (CBlock.serialize fullSer b) = some b' ∧
      b'.header = b.header ∧ b'.vtx = b.vtx ∧ b'.vchBlockSig = b.vchBlockSig := by
  refine ⟨blockReadResult CBlock.null b, ?_, rfl, rfl, ?_⟩
  · unfold CBlock.decode
    have h := CBlock.deserializeInto_serialize CBlock.null b []
    rw [List.append_nil] at h
    rw [h]
  · unfold blockReadResult
    by_cases hv : b.header.nVersion ≥ CBlockHeader.CURRENT_VERSION
    · simp [hv]
    · simp only [hv, ite_false]
      exact (hvalid (lt_of_not_ge hv)).symm

/-- Witness for C3: the round-trip applied to a concrete current-version
block carrying one transaction and a non-empty signature. -/
theorem C3_full_view_roundtrip_witness :
    ∃ b', CBlock.decode fullSer (CBlock.serialize fullSer wBlock1) = some b' ∧
      b'.header = wBlock1.header ∧ b'.vtx = wBlock1.vtx ∧
      b'.vchBlockSig = wBlock1.vchBlockSig :=
  C3_full_view_roundtrip wBlock1 (by decide)

/-- C4: version gating of the signature — for a block with
`nVersion = LEGACY_VERSION_1`, the full-view encoding is exactly the
header followed by the transaction sequence, with no signature bytes even
when `vchBlockSig` is non-empty, and decoding that buffer yields a block
with an empty signature. -/
theorem C4_legacy_version_omits_signature (b : CBlock)
    (hver : b.header.nVersion = CBlockHeader.LEGACY_VERSION_1) :
    CBlock.serialize fullSer b = b.header.serialize ++ serVtx b.vtx ∧
    CBlock.decode fullSer (CBlock.serialize fullSer b) =
      some ⟨b.header, b.vtx, [], false⟩ := by
  have hv : ¬ b.header.nVersion ≥ CBlockHeader.CURRENT_VERSION := by
    rw [hver]
    decide
  constructor
  · simp [CBlock.serialize, fullSer, hv]
  · unfold CBlock.decode
    have h := CBlock.deserializeInto_serialize CBlock.null b []
    rw [List.append_nil] at h
    rw [h]
    simp [blockReadResult, hv, CBlock.null]

/-- Witness for C4: a concrete legacy-version block whose in-memory
signature `[4, 5]` is non-empty is encoded without it and decodes back
with an empty signature. -/
theorem C4_legacy_version_omits_signature_witness :
    wBlockV1.vchBlockSig ≠ [] ∧
    (CBlock.serialize fullSer wBlockV1 =
        wBlockV1.header.serialize ++ serVtx wBlockV1.vtx ∧
      CBlock.decode fullSer (CBlock.serialize fullSer wBlockV1) =
        some ⟨wBlockV1.header, wBlockV1.vtx, [], false⟩) :=
  ⟨by decide, C4_legacy_version_omits_signature wBlockV1 rfl⟩

/-- C5: hash-domain / header-only isolation — in any encoding context with
`SER_GETHASH` or `SER_BLOCKHEADERONLY` set, encoding writes exactly the
six header fields (no transaction or signature items), and any successful
decode in that context yields empty transactions and an empty signature,
whatever the target block's previous contents were. -/
theorem C5_header_view_isolation (st : SerType)
    (hst : st.getHash = true ∨ st.blockHeaderOnly = true) :
    (∀ b : CBlock, CBlock.serialize st b = b.header.serialize) ∧
    (∀ (prev : CBlock) (toks : List Token) (b' : CBlock) (rest : List Token),
      CBlock.deserializeInto st prev toks = some (b', rest) →
      b'.vtx = [] ∧ b'.vchBlockSig = []) := by
  have hcond : (!(st.getHash || st.blockHeaderOnly)) = false := by
    rcases hst with h | h <;> simp [h]
  constructor
  · intro b
    simp [CBlock.serialize, hcond]
  · intro prev toks b' rest h
    unfold CBlock.deserializeInto at h
    split at h
    · simp at h
    · rw [hcond] at h
      simp only [Bool.false_eq_true, if_false] at h
      cases h
      exact ⟨rfl, rfl⟩

/-- Witness for C5: the hash-domain context applied to a concrete block with
transactions and signature, and a concrete header-only decode into a dirty
target. -/
theorem C5_header_view_isolation_witness :
    CBlock.serialize hashSer wBlock1 = wBlock1.header.serialize ∧
    (CBlock.deserializeInto headerOnlySer wBlock1 (wHeader.serialize) =
        some (⟨wHeader, [], [], false⟩, []) ∧
      ([] : List CTransaction) = [] ∧ ([] : List Nat) = []) :=
  ⟨(C5_header_view_isolation hashSer (Or.inl rfl)).1 wBlock1,
   by decide,
   (C5_header_view_isolation headerOnlySer (Or.inr rfl)).2 wBlock1
     wHeader.serialize ⟨wHeader, [], [], false⟩ [] (by decide)⟩

/-- C9: full-view decoding never partially succeeds on malformed input — a
buffer that decodes successfully is exactly the full-view serialization of
its result (so a truncated stream, a signature-presence mismatch with the
version, or any other deviation fails), every strict prefix of such a
buffer fails to decode (premature truncation), and appending any trailing
bytes to it makes decoding fail (unconsumed trailing data). -/
theorem C9_decode_rejects_malformed (toks : List Token) (b : CBlock)
    (h : CBlock.decode fullSer toks = some b) :
    toks = CBlock.serialize fullSer b ∧
    (∀ pre post, toks = pre ++ post → post ≠ [] →
      CBlock.decode fullSer pre = none) ∧
    (∀ extra, extra ≠ [] → CBlock.decode fullSer (toks ++ extra) = none) := by
  have hd : CBlock.deserializeInto fullSer CBlock.null toks = some (b, []) := by
    unfold CBlock.decode at h
    split at h
    · rename_i b' heq
      cases h
      exact heq
    · simp at h
  refine ⟨?_, ?_, ?_⟩
  · have := CBlock.deserializeInto_eq CBlock.null toks [] b hd
    rwa [List.append_nil] at this
  · intro pre post hsplit hpost
    cases hdec : CBlock.decode fullSer pre with
    | none => rfl
    | some b2 =>
      exfalso
      have hd2 : CBlock.deserializeInto fullSer CBlock.null pre = some (b2, []) := by
        unfold CBlock.decode at hdec
        split at hdec
        · rename_i b' heq
          cases hdec
          exact heq
        · simp at hdec
      have := CBlock.deserializeInto_append CBlock.null b2 pre [] post hd2
      rw [List.nil_append, ← hsplit, hd] at this
      injection this with this'
      exact hpost (congrArg Prod.snd this').symm
  · intro extra hextra
    have := CBlock.deserializeInto_append CBlock.null b toks [] extra hd
    rw [List.nil_append] at this
    unfold CBlock.decode
    rw [this]
    cases extra with
    | nil => exact absurd rfl hextra
    | cons e es => rfl

/-- Witness for C9: the serialization of a concrete block decodes to exactly
that block, and the truncation dropping its final signature item (a
signature absent where the version requires one) fails to decode. -/
theorem C9_decode_rejects_malformed_witness :
    CBlock.decode fullSer (CBlock.serialize fullSer wBlock1) = some wBlock1 ∧
    CBlock.decode fullSer
      (List.take 8 (CBlock.serialize fullSer wBlock1)) = none :=
  ⟨by decide,
   (C9_decode_rejects_malformed (CBlock.serialize fullSer wBlock1) wBlock1
      (by decide)).2.1
     (List.take 8 (CBlock.serialize fullSer wBlock1))
     (List.drop 8 (CBlock.serialize fullSer wBlock1))
     (by decide) (by decide)⟩
